import Mathlib

/-!
Verification of the GaiaLab hit-detection pipeline
(`packages/hits/hitdetector.py`, `packages/hits/noiseremoval/lowpass.py`).

Telemetry samples are rows `(obmt, rate, w1_rate)`; detectors add derived
boolean columns.  Floating point values are modelled by rationals; the
low-pass filter coefficients, which involve `pi` and `exp`, by reals.
-/

namespace GaiaLab

/-- A row of a telemetry dataframe.  `idx` is the pandas index label
(preserved by sorting); the optional fields model derived columns that are
absent until the corresponding assignment runs. -/
structure Row where
  idx : Nat
  obmt : ℚ
  rate : ℚ
  w1_rate : ℚ
  anomaly : Option Bool := none
  grad : Option ℚ := none
  hits : Option Bool := none
deriving Repr, DecidableEq

/-- A dataframe is an ordered list of rows. -/
abbrev DF := List Row

/-- Build a dataframe from `(obmt, rate, w1_rate)` triples with the default
range index `0, 1, 2, ...`, as produced by `pd.read_csv` at the pipeline
boundary. -/
def mkDF (rows : List (ℚ × ℚ × ℚ)) : DF :=
  rows.enum.map (fun p => { idx := p.1, obmt := p.2.1, rate := p.2.2.1, w1_rate := p.2.2.2 })

/-- Modelled from the spec: the `sort_data` decorator (from `hits.misc`,
whose source file is not present) sorts the series ascending by `obmt`
before each detector runs, keeping index labels attached to their rows. -/
def sort_data (df : DF) : DF :=
  df.insertionSort (fun a b => a.obmt ≤ b.obmt)

/-- `np.floor(t*k)/k`: quantisation to `1/k`-revolution buckets. -/
def floorQuant (k : ℚ) (q : ℚ) : ℚ :=
  (⌊q * k⌋ : ℚ) / k

/-- `working_df['anomaly'] = (abs(working_df['rate'] - working_df['w1_rate']) >= anomaly_threshold)`,
applied to one row. -/
def anomalyFlag (threshold : ℚ) (r : Row) : Row :=
  { r with anomaly := some (decide (threshold ≤ |r.rate - r.w1_rate|)) }

/-- The rows selected by `working_df['anomaly'] == True`. -/
def flaggedRows (df : DF) : List Row :=
  df.filter (fun r => r.anomaly == some true)

/-- `pd.DataFrame(...).drop_duplicates(subset='obmt')` over `(index, obmt)`
pairs: keep a pair only if its `obmt` value has not been seen before. -/
def dropDupBySnd (seen : List ℚ) : List (Nat × ℚ) → List (Nat × ℚ)
  | [] => []
  | e :: rest =>
    if e.2 ∈ seen then dropDupBySnd seen rest
    else e :: dropDupBySnd (e.2 :: seen) rest

/-- The annotated frame built by `identify_anomaly`: a copy of the (sorted)
input with the `anomaly` column assigned. -/
def annotate_anomaly (df : DF) (threshold : ℚ) : DF :=
  (sort_data df).map (anomalyFlag threshold)

/-- The event table of `identify_anomaly` / `identify_through_gradient`:
times of flagged rows, quantised by flooring `obmt*k` and dividing by `k`,
indexed by the original row labels, with duplicate buckets dropped
(`drop_duplicates` keeps the first occurrence). -/
def anomaly_events (working : DF) (k : ℚ) : List (Nat × ℚ) :=
  dropDupBySnd [] ((flaggedRows working).map (fun r => (r.idx, floorQuant k r.obmt)))

/-- `identify_anomaly(df, anomaly_threshold=2)` from `hitdetector.py`:
flags rows where `|rate - w1_rate| >= threshold` on a copy of the input and
returns the copy together with the deduplicated 0.1-revolution event table. -/
def identify_anomaly (df : DF) (threshold : ℚ) : DF × List (Nat × ℚ) :=
  (annotate_anomaly df threshold, anomaly_events (annotate_anomaly df threshold) 10)

/-- `np.diff`: successive differences, `diff[i] = l[i+1] - l[i]`. -/
def listDiff (l : List ℚ) : List ℚ :=
  (l.zip l.tail).map (fun p => p.2 - p.1)

/-- The row list of a successful `identify_through_gradient` frame
construction:
`working_df['grad'] = [0, *np.diff(rate - w1_rate)]` followed by
`working_df['anomaly'] = (abs(working_df['grad'] >= gradient_threshold))`.
The `abs` is applied to the boolean comparison result, so it is the
identity and the flag is the sign-sensitive test `grad >= threshold`. -/
def annotate_gradient_rows (df : DF) (threshold : ℚ) : DF :=
  let working := sort_data (sort_data df)
  let grads : List ℚ := 0 :: listDiff (working.map (fun r => r.rate - r.w1_rate))
  let withGrad := working.zipWith (fun r g => { r with grad := some g }) grads
  withGrad.map (fun r => { r with anomaly := some (decide (threshold ≤ r.grad.getD 0)) })

/-- The annotated frame built by `identify_through_gradient`.  Pandas
column assignment requires the assigned list's length to equal the
frame's row count; the grad list `[0, *np.diff(...)]` always has at
least one entry, so on a zero-row frame the lengths mismatch and the
assignment fails with `ValueError` instead of producing a frame. -/
def annotate_gradient (df : DF) (threshold : ℚ) : Except String DF :=
  let working := sort_data (sort_data df)
  let grads : List ℚ := 0 :: listDiff (working.map (fun r => r.rate - r.w1_rate))
  if grads.length = working.length then Except.ok (annotate_gradient_rows df threshold)
  else Except.error "ValueError"

/-- `identify_through_gradient(df, gradient_threshold=0.3)` from
`hitdetector.py`: flags rows where the first difference of
`rate - w1_rate` (with a 0 prepended) satisfies `grad >= threshold`, and
returns the annotated copy with the deduplicated 0.05-revolution event
table; on an empty series the grad column assignment fails. -/
def identify_through_gradient (df : DF) (threshold : ℚ) : Except String (DF × List (Nat × ℚ)) :=
  match annotate_gradient df threshold with
  | Except.error e => Except.error e
  | Except.ok working => Except.ok (working, anomaly_events working 20)

/-- The per-event `hits` classification of `identify_noise` (the
`len >= 3` branch): second differences of the event times, left-padded
`diff_diff = [1, 1, *differences2]`, and
`hits = [False if diff < 0.5 else True for diff in diff_diff]`,
keyed by the event's index label. -/
def noiseFlags (t : List (Nat × ℚ)) : List (Nat × Bool) :=
  let differences := listDiff (t.map Prod.snd)
  let differences2 := listDiff differences
  let diff_diff : List ℚ := 1 :: 1 :: differences2
  (t.zip diff_diff).map (fun p => (p.1.1, if p.2 < 1/2 then false else true))

/-- The unused-but-constructed `diff` column of `identify_noise`'s
`time_data` frame: first differences left-padded with the sentinel 1. -/
def noisePaddedDiff (t : List (Nat × ℚ)) : List ℚ :=
  1 :: listDiff (t.map Prod.snd)

/-- `identify_noise(df)` from `hitdetector.py`.  Calls `identify_anomaly`
with the default threshold 2.  With fewer than 3 events it copies the
`anomaly` column into `hits` and returns only the rows at the event index
labels (`working_df.loc[t.index]`); otherwise it returns the full frame
with `hits` looked up from the per-event classification, defaulting to
`False` for labels not in the event table. -/
def identify_noise (df : DF) : DF × List (Nat × ℚ) :=
  let p := identify_anomaly df 2
  let data := p.1
  let t := p.2
  if t.length < 3 then
    let working := data.map (fun r => { r with hits := r.anomaly })
    let hit_df := t.filterMap (fun e => working.find? (fun r => r.idx == e.1))
    (hit_df, t)
  else
    let flags := noiseFlags t
    let working := data.map (fun r => { r with hits := some ((flags.lookup r.idx).getD false) })
    (working, t)

/-! ### Low-pass filter (`noiseremoval/lowpass.py`) -/

/-- The body of the `while True` loop of `LowPassData._low_pass`: at each
step `x += alpha * (data_array[i] - x)` and the updated `x` is yielded;
the loop ends when `data_array[i]` is out of range. -/
def lowPassFrom (alpha x : ℚ) : List ℚ → List ℚ
  | [] => []
  | d :: rest =>
    let x2 := x + alpha * (d - x)
    x2 :: lowPassFrom alpha x2 rest

/-- `LowPassData._low_pass(data_array, alpha)`: the initial read
`x = data_array[0]` happens before the guarded loop, so an empty array
raises `IndexError` before anything is yielded; otherwise the loop runs
over the whole array starting at `i = 0` with `x` initialised to
`data_array[0]`. -/
def low_pass (alpha : ℚ) (data : List ℚ) : Except String (List ℚ) :=
  match data with
  | [] => Except.error "IndexError"
  | d :: rest => Except.ok (lowPassFrom alpha d (d :: rest))

/-- The `dt` computed by `LowPassData.__init__`:
`(self._obmt[1] - self._obmt[0]) * 21600` when `_obmt` is not `None`
(raising `IndexError` when the array has fewer than two entries), and `1`
when it is `None`.  Modelled from the spec: the `FilterData` base class
(`noiseremoval/filters.py`, whose source file is not present) stores the
series' `obmt` column, one entry per sample, or `None` when no `obmt`
data was supplied. -/
def lowPassDt : Option (List ℚ) → Except String ℚ
  | none => Except.ok 1
  | some obmt =>
    match obmt[1]?, obmt[0]? with
    | some o1, some o0 => Except.ok ((o1 - o0) * 21600)
    | _, _ => Except.error "IndexError"

/-- The coefficient formula of `LowPassData.__init__` (and of the module
docstring): `alpha = 2 pi dt f / (2 pi dt f + 1)`. -/
noncomputable def lowPassAlpha (dt f : ℝ) : ℝ :=
  (2 * Real.pi * dt * f) / (2 * Real.pi * dt * f + 1)

/-- The mutable state of a `LowPassData` object.  `running` models the
filter's running output value; modelled from the spec: `FilterData.reset`
(source file not present) clears the running state. -/
structure LowPassState where
  dt : ℝ
  cutoff : ℝ
  alpha : ℝ
  running : Option ℝ

/-- `LowPassData.__init__`: `dt` from the `obmt` spacing (or 1), default
cutoff `0.05`, and `alpha` from the rational formula. -/
noncomputable def lowPassInit (obmt : Option (List ℚ)) : Except String LowPassState :=
  match lowPassDt obmt with
  | Except.error e => Except.error e
  | Except.ok dt => Except.ok { dt := (dt : ℝ), cutoff := 1/20, alpha := lowPassAlpha (dt : ℝ) (1/20), running := none }

/-- `LowPassData.tweak_cutoff(cutoff)`: stores the new cutoff, recomputes
`alpha = 1 - np.exp(-1 * dt * cutoff)` — a different formula from the one
used at construction — and calls `reset()` (modelled from the spec: reset
clears the running state). -/
noncomputable def tweak_cutoff (s : LowPassState) (cutoff : ℝ) : LowPassState :=
  { s with cutoff := cutoff, alpha := 1 - Real.exp (-1 * s.dt * cutoff), running := none }

/-! ### Specification-side event construction (for claim C1)

The spec describes the event list as "the values floor(obmt*10)/10 of the
flagged samples with duplicates removed, keeping the first flagged
sample's original index for each bucket".  The following definitions
follow those words; the theorem for C1 compares them with the
source-derived `anomaly_events`. -/

/-- Duplicate removal keeping the first occurrence of each value. -/
def dedupFirst (seen : List ℚ) : List ℚ → List ℚ
  | [] => []
  | b :: rest =>
    if b ∈ seen then dedupFirst seen rest
    else b :: dedupFirst (b :: seen) rest

/-- The original index of the first flagged sample in bucket `b`. -/
def firstIdxWith (flagged : List Row) (k b : ℚ) : Nat :=
  match flagged.find? (fun r => floorQuant k r.obmt == b) with
  | some r => r.idx
  | none => 0

/-- Spec-side event list: quantised values of the flagged samples,
deduplicated keeping first occurrences, each paired with the index of the
first flagged sample of its bucket. -/
def specEvents (flagged : List Row) (k : ℚ) : List (Nat × ℚ) :=
  (dedupFirst [] (flagged.map (fun r => floorQuant k r.obmt))).map
    (fun b => (firstIdxWith flagged k b, b))

/-- Pair-level analogue of `firstIdxWith`. -/
def pairFirst (l : List (Nat × ℚ)) (b : ℚ) : Nat :=
  match l.find? (fun p => p.2 == b) with
  | some p => p.1
  | none => 0

theorem mem_dedupFirst_not_seen : ∀ (l seen : List ℚ) (b : ℚ),
    b ∈ dedupFirst seen l → b ∉ seen := by
  intro l
  induction l with
  | nil => intro seen b h; simp [dedupFirst] at h
  | cons c rest ih =>
    intro seen b h
    by_cases hc : c ∈ seen
    · rw [dedupFirst, if_pos hc] at h
      exact ih seen b h
    · rw [dedupFirst, if_neg hc] at h
      rcases List.mem_cons.mp h with h1 | h2
      · exact h1 ▸ hc
      · intro hb
        exact ih (c :: seen) b h2 (List.mem_cons_of_mem c hb)

theorem dedupFirst_nodup : ∀ (l seen : List ℚ), (dedupFirst seen l).Nodup := by
  intro l
  induction l with
  | nil => intro seen; simp [dedupFirst]
  | cons c rest ih =>
    intro seen
    by_cases hc : c ∈ seen
    · rw [dedupFirst, if_pos hc]; exact ih seen
    · rw [dedupFirst, if_neg hc]
      refine List.nodup_cons.mpr ⟨fun hmem => ?_, ih (c :: seen)⟩
      exact mem_dedupFirst_not_seen rest (c :: seen) c hmem (List.mem_cons_self c seen)

theorem dropDupBySnd_eq_spec : ∀ (l : List (Nat × ℚ)) (seen : List ℚ),
    dropDupBySnd seen l =
      (dedupFirst seen (l.map Prod.snd)).map (fun b => (pairFirst l b, b)) := by
  intro l
  induction l with
  | nil => intro seen; simp [dropDupBySnd, dedupFirst]
  | cons c rest ih =>
    intro seen
    by_cases hc : c.2 ∈ seen
    · rw [dropDupBySnd, if_pos hc, List.map_cons, dedupFirst, if_pos hc, ih seen]
      refine List.map_congr_left (fun b hb => ?_)
      have hbne : b ≠ c.2 := by
        intro he
        exact mem_dedupFirst_not_seen _ _ _ hb (he ▸ hc)
      have : (c.2 == b) = false := beq_eq_false_iff_ne.mpr (fun he => hbne he.symm)
      simp [pairFirst, List.find?, this]
    · rw [dropDupBySnd, if_neg hc, List.map_cons, dedupFirst, if_neg hc, List.map_cons]
      have hhead : pairFirst (c :: rest) c.2 = c.1 := by
        simp [pairFirst, List.find?]
      rw [hhead, ih (c.2 :: seen)]
      refine congrArg (List.cons (c.1, c.2)) ?_
      refine List.map_congr_left (fun b hb => ?_)
      have hbne : b ≠ c.2 := by
        intro he
        exact mem_dedupFirst_not_seen _ _ _ hb (he ▸ List.mem_cons_self c.2 seen)
      have : (c.2 == b) = false := beq_eq_false_iff_ne.mpr (fun he => hbne he.symm)
      simp [pairFirst, List.find?, this]

theorem anomaly_events_eq_spec (working : DF) (k : ℚ) :
    anomaly_events working k = specEvents (flaggedRows working) k := by
  rw [anomaly_events, specEvents, dropDupBySnd_eq_spec, List.map_map]
  have h1 : List.map (Prod.snd ∘ fun r => (r.idx, floorQuant k r.obmt)) (flaggedRows working)
      = List.map (fun r => floorQuant k r.obmt) (flaggedRows working) := by
    simp [Function.comp]
  rw [h1]
  refine List.map_congr_left (fun b _ => ?_)
  refine congrArg₂ Prod.mk ?_ rfl
  rw [pairFirst, firstIdxWith, List.find?_map]
  have hpred : ((fun p : Nat × ℚ => p.2 == b) ∘ fun r : Row => (r.idx, floorQuant k r.obmt))
      = (fun r : Row => floorQuant k r.obmt == b) := rfl
  rw [hpred]
  rcases h : List.find? (fun r : Row => floorQuant k r.obmt == b) (flaggedRows working) with _ | r
  · rfl
  · rfl

/-- C1: for every telemetry series and every threshold, `identify_anomaly`
marks a sample's `anomaly` flag true exactly when
`|rate - w1_rate| >= threshold` for that sample, and its event list
consists of the values `floor(obmt*10)/10` of the flagged samples with
duplicates removed, keeping the first flagged sample's original index for
each 0.1-revolution bucket (in particular the buckets are pairwise
distinct). -/
theorem identify_anomaly_correct (df : DF) (threshold : ℚ) :
    (∀ r ∈ (identify_anomaly df threshold).1,
        r.anomaly = some (decide (threshold ≤ |r.rate - r.w1_rate|))) ∧
    (identify_anomaly df threshold).2 =
      specEvents (flaggedRows (identify_anomaly df threshold).1) 10 ∧
    ((identify_anomaly df threshold).2.map Prod.snd).Nodup := by
  refine ⟨?_, anomaly_events_eq_spec _ 10, ?_⟩
  · intro r hr
    rw [identify_anomaly] at hr
    simp only [annotate_anomaly, List.mem_map] at hr
    obtain ⟨r0, _, hr0⟩ := hr
    subst hr0
    simp [anomalyFlag]
  · rw [identify_anomaly]
    rw [show (annotate_anomaly df threshold, anomaly_events (annotate_anomaly df threshold) 10).2
        = anomaly_events (annotate_anomaly df threshold) 10 from rfl]
    rw [anomaly_events_eq_spec, specEvents, List.map_map]
    rw [show (Prod.snd ∘ fun b => (firstIdxWith (flaggedRows (annotate_anomaly df threshold)) 10 b, b)) = id from rfl]
    rw [List.map_id]
    exact dedupFirst_nodup _ []

/-! ### Low-pass filter claims (C3, C8, C10, C7) -/

theorem lowPassFrom_length : ∀ (a x : ℚ) (l : List ℚ),
    (lowPassFrom a x l).length = l.length := by
  intro a x l
  induction l generalizing x with
  | nil => rfl
  | cons c rest ih => simp [lowPassFrom, ih]

theorem lowPassFrom_head (a d : ℚ) (rest : List ℚ) :
    (lowPassFrom a d (d :: rest))[0]? = some d := by
  simp [lowPassFrom]

theorem lowPassFrom_getElem?_succ : ∀ (a x : ℚ) (l : List ℚ) (n : ℕ) (yn d : ℚ),
    (lowPassFrom a x l)[n]? = some yn → l[n + 1]? = some d →
    (lowPassFrom a x l)[n + 1]? = some (yn + a * (d - yn)) := by
  intro a x l
  induction l generalizing x with
  | nil => intro n yn d h1 _; simp [lowPassFrom] at h1
  | cons c rest ih =>
    intro n yn d h1 h2
    match n with
    | 0 =>
      rw [lowPassFrom] at h1
      simp only [List.getElem?_cons_zero] at h1
      obtain rfl := Option.some.inj h1
      simp only [List.getElem?_cons_succ] at h2
      match rest, h2 with
      | e :: rest2, h2 =>
        simp only [List.getElem?_cons_zero] at h2
        obtain rfl := Option.some.inj h2
        rw [lowPassFrom]
        simp only [List.getElem?_cons_succ]
        rw [lowPassFrom]
        simp only [List.getElem?_cons_zero]
    | Nat.succ m =>
      rw [lowPassFrom] at h1 ⊢
      simp only [List.getElem?_cons_succ] at h1 h2 ⊢
      exact ih (x + a * (c - x)) m yn d h1 h2

/-- C3 (amended): for every non-empty input the filter terminates normally
with a same-length output satisfying `y[0] = x[0]` and
`y[n+1] = y[n] + alpha * (x[n+1] - y[n])` — the update producing `y[n+1]`
reads input sample `x[n+1]`, not `x[n]` as the original claim stated. -/
theorem low_pass_recurrence (alpha d : ℚ) (rest : List ℚ) :
    ∃ y, low_pass alpha (d :: rest) = Except.ok y ∧
      y.length = (d :: rest).length ∧
      y[0]? = some d ∧
      ∀ (n : ℕ) (yn xn1 : ℚ), y[n]? = some yn → (d :: rest)[n + 1]? = some xn1 →
        y[n + 1]? = some (yn + alpha * (xn1 - yn)) := by
  refine ⟨lowPassFrom alpha d (d :: rest), rfl, lowPassFrom_length alpha d (d :: rest), lowPassFrom_head alpha d rest, ?_⟩
  intro n yn xn1 h1 h2
  exact lowPassFrom_getElem?_succ alpha d (d :: rest) n yn xn1 h1 h2

/-- Witness for C3 (amended) at `alpha = 1/2`, input `[0, 1]`: the output
is `[0, 1/2]` and `y[1] = y[0] + alpha * (x[1] - y[0]) = 1/2`. -/
theorem low_pass_recurrence_witness :
    low_pass (1/2 : ℚ) [0, 1] = Except.ok [0, 1/2] ∧
    ([0, (1 : ℚ)/2] : List ℚ)[1]? = some (0 + (1/2) * (1 - 0)) := by
  obtain ⟨y, h1, _, h3, h4⟩ := low_pass_recurrence (1/2 : ℚ) 0 [1]
  have hcomp : low_pass (1/2 : ℚ) [0, 1] = Except.ok [0, 1/2] := by
    rw [low_pass, lowPassFrom, lowPassFrom, lowPassFrom]
    norm_num
  have hy : y = [0, 1/2] := by
    have h5 : Except.ok (ε := String) y = Except.ok [0, (1 : ℚ)/2] := by
      rw [← h1, hcomp]
    exact Except.ok.inj h5
  subst hy
  refine ⟨h1, ?_⟩
  refine (h4 0 0 1 h3 ?_)
  simp [List.getElem?_cons_succ, List.getElem?_cons_zero]

/-- C3 counterexample: the claim's recurrence
`y[n+1] = y[n] + alpha*(x[n] - y[n])` with `y[0] = x[0]` forces
`y[1] = 0 + (1/2)*(0 - 0) = 0` on input `[0, 1]` with `alpha = 1/2`,
but the code outputs `y[1] = 1/2`. -/
theorem low_pass_claim_counterexample :
    low_pass (1/2 : ℚ) [0, 1] = Except.ok [0, 1/2] ∧
    ((0 : ℚ) + (1/2) * (0 - 0)) ≠ (1/2 : ℚ) := by
  constructor
  · rw [low_pass, lowPassFrom, lowPassFrom, lowPassFrom]
    norm_num
  · norm_num

/-- C10: `_low_pass` on an empty array fails with `IndexError` before
yielding any value (the initial read `x = data_array[0]` is outside the
guarded loop), while on every non-empty array the out-of-range access is
only the normal termination condition: the run succeeds and yields one
output per input sample. -/
theorem low_pass_empty_error_nonempty_total :
    (∀ alpha : ℚ, low_pass alpha [] = Except.error "IndexError") ∧
    (∀ (alpha d : ℚ) (rest : List ℚ), ∃ y,
        low_pass alpha (d :: rest) = Except.ok y ∧ y.length = (d :: rest).length) := by
  refine ⟨fun _ => rfl, fun alpha d rest => ?_⟩
  exact ⟨lowPassFrom alpha d (d :: rest), rfl, lowPassFrom_length alpha d (d :: rest)⟩

/-- C8 counterexample: with a one-sample series (its `obmt` column is the
one-element array `[5]`), `__init__` does not set `dt = 1`: the read
`self._obmt[1]` raises `IndexError` and construction fails. -/
theorem lowPassDt_single_sample :
    lowPassDt (some [(5 : ℚ)]) = Except.error "IndexError" ∧
    lowPassDt (some [(5 : ℚ)]) ≠ Except.ok 1 := by
  refine ⟨rfl, ?_⟩
  intro h
  simp [lowPassDt] at h

/-- C8 (amended): `dt = 1` exactly when no `obmt` data is present
(`_obmt is None`); with an `obmt` array of at least two entries
`dt = (obmt[1] - obmt[0]) * 21600`; with an `obmt` array of fewer than two
entries construction fails with `IndexError` instead of defaulting to 1. -/
theorem lowPassDt_cases :
    lowPassDt none = Except.ok 1 ∧
    (∀ (o0 o1 : ℚ) (rest : List ℚ),
        lowPassDt (some (o0 :: o1 :: rest)) = Except.ok ((o1 - o0) * 21600)) ∧
    lowPassDt (some []) = Except.error "IndexError" ∧
    (∀ o : ℚ, lowPassDt (some [o]) = Except.error "IndexError") := by
  refine ⟨rfl, fun o0 o1 rest => ?_, ?_, fun o => ?_⟩
  · rw [lowPassDt]
    simp [List.getElem?_cons_zero, List.getElem?_cons_succ]
  · rw [lowPassDt]
    simp
  · rw [lowPassDt]
    simp [List.getElem?_cons_zero, List.getElem?_cons_succ]

/-- C7: `tweak_cutoff` does not recompute `alpha` by the formula used at
construction (and stated in the module docstring).  With `dt = 1` (an
`obmt` spacing of `1/21600` revolutions) and the default cutoff `1/20`,
construction sets `alpha = 2*pi*(1/20) / (2*pi*(1/20) + 1) > 1/20`, while
`tweak_cutoff` with the same `dt` and cutoff sets
`alpha = 1 - exp(-1/20) <= 1/20`.  The running state is cleared as
claimed; only the formula diverges. -/
theorem tweak_cutoff_formula_mismatch :
    ∃ s : LowPassState, lowPassInit (some [0, 1/21600]) = Except.ok s ∧
      s.dt = 1 ∧
      (tweak_cutoff s (1/20)).dt = s.dt ∧
      (tweak_cutoff s (1/20)).cutoff = s.cutoff ∧
      (tweak_cutoff s (1/20)).running = none ∧
      (tweak_cutoff s (1/20)).alpha ≠ lowPassAlpha (tweak_cutoff s (1/20)).dt (1/20) := by
  have hdt : lowPassDt (some [0, 1/21600]) = Except.ok 1 := by
    rw [lowPassDt]
    simp only [List.getElem?_cons_zero, List.getElem?_cons_succ]
    norm_num
  refine ⟨{ dt := ((1 : ℚ) : ℝ), cutoff := 1/20, alpha := lowPassAlpha ((1 : ℚ) : ℝ) (1/20), running := none }, ?_, ?_, rfl, rfl, rfl, ?_⟩
  · rw [lowPassInit, hdt]
  · simp
  · simp only [tweak_cutoff, lowPassAlpha, Rat.cast_one]
    have hpi := Real.pi_gt_three
    have hexp := Real.add_one_le_exp (-1 * 1 * (1/20) : ℝ)
    have hle : 1 - Real.exp (-1 * 1 * (1/20) : ℝ) ≤ 1/20 := by linarith
    have hu1 : (0 : ℝ) < 2 * Real.pi * 1 * (1/20) + 1 := by nlinarith
    have hlt : (1 : ℝ)/20 < 2 * Real.pi * 1 * (1/20) / (2 * Real.pi * 1 * (1/20) + 1) := by
      rw [lt_div_iff₀ hu1]
      nlinarith
    intro h
    rw [h] at hle
    linarith

/-! ### Difference-list lemmas -/

theorem listDiff_cons_cons (c e : ℚ) (l : List ℚ) :
    listDiff (c :: e :: l) = (e - c) :: listDiff (e :: l) := rfl

theorem listDiff_length : ∀ l : List ℚ, (listDiff l).length = l.length - 1 := by
  intro l
  rw [listDiff, List.length_map, List.length_zip, List.length_tail]
  omega

theorem listDiff_getElem? : ∀ (l : List ℚ) (n : ℕ) (a b : ℚ),
    l[n]? = some a → l[n + 1]? = some b → (listDiff l)[n]? = some (b - a) := by
  intro l
  induction l with
  | nil => intro n a b h1 _; simp at h1
  | cons c rest ih =>
    intro n a b h1 h2
    match n with
    | 0 =>
      simp only [List.getElem?_cons_zero] at h1
      obtain rfl := Option.some.inj h1
      simp only [List.getElem?_cons_succ] at h2
      match rest, h2 with
      | e :: rest2, h2 =>
        simp only [List.getElem?_cons_zero] at h2
        obtain rfl := Option.some.inj h2
        rw [listDiff_cons_cons]
        simp
    | Nat.succ m =>
      simp only [List.getElem?_cons_succ] at h1 h2
      match rest, h1 with
      | e :: rest2, h1 =>
        rw [listDiff_cons_cons]
        simp only [List.getElem?_cons_succ]
        exact ih m a b h1 h2

/-! ### Gradient detector (C6) -/

theorem annotate_gradient_rows_getElem? (df : DF) (g : ℚ) (n : ℕ) :
    (annotate_gradient_rows df g)[n]? =
      (match (sort_data (sort_data df))[n]?,
          ((0 : ℚ) :: listDiff ((sort_data (sort_data df)).map (fun r => r.rate - r.w1_rate)))[n]? with
      | some w, some gv => some { w with grad := some gv, anomaly := some (decide (g ≤ gv)) }
      | _, _ => none) := by
  rw [annotate_gradient_rows]
  simp only [List.getElem?_map, List.getElem?_zipWith]
  generalize ((0 : ℚ) :: listDiff (List.map (fun r => r.rate - r.w1_rate) (sort_data (sort_data df))))[n]? = og
  generalize (sort_data (sort_data df))[n]? = ow
  rcases ow with _ | w <;> rcases og with _ | gv <;> rfl

theorem annotate_gradient_rows_length (df : DF) (g : ℚ) :
    (annotate_gradient_rows df g).length = df.length := by
  have hW : (sort_data (sort_data df)).length = df.length := by
    rw [sort_data, sort_data, List.length_insertionSort, List.length_insertionSort]
  rw [annotate_gradient_rows]
  rw [List.length_map, List.length_zipWith, List.length_cons, listDiff_length,
    List.length_map, hW]
  omega

theorem annotate_gradient_empty (g : ℚ) :
    annotate_gradient [] g = Except.error "ValueError" := rfl

theorem annotate_gradient_ok (df : DF) (g : ℚ) (hdf : df ≠ []) :
    annotate_gradient df g = Except.ok (annotate_gradient_rows df g) := by
  have hW : (sort_data (sort_data df)).length = df.length := by
    rw [sort_data, sort_data, List.length_insertionSort, List.length_insertionSort]
  have hpos : 0 < df.length := List.length_pos.mpr hdf
  have hc : ((0 : ℚ) :: listDiff ((sort_data (sort_data df)).map (fun r => r.rate - r.w1_rate))).length
      = (sort_data (sort_data df)).length := by
    simp only [List.length_cons, listDiff_length, List.length_map, hW]
    omega
  simp only [annotate_gradient]
  rw [if_pos hc]

/-- C6 (amended): on a non-empty series the gradient detector annotates
every sample with the first difference of `rate - w1_rate` (zero
prepended), but flags `anomaly` by the sign-sensitive test
`difference >= threshold`: the `abs` in the source is applied to the
boolean comparison result and is a no-op.  The first sample is never
anomalous provided the threshold is positive.  On an empty series the
grad column assignment's length check fails and no frame is produced. -/
theorem identify_through_gradient_flags (df : DF) (g : ℚ) :
    (df = [] → identify_through_gradient df g = Except.error "ValueError") ∧
    (∀ (ann : DF) (events : List (Nat × ℚ)),
        identify_through_gradient df g = Except.ok (ann, events) →
        ann.length = df.length ∧
        (∀ (n : ℕ) (rn rn1 : Row),
            ann[n]? = some rn →
            ann[n + 1]? = some rn1 →
            rn1.anomaly = some (decide (g ≤ (rn1.rate - rn1.w1_rate) - (rn.rate - rn.w1_rate)))) ∧
        (0 < g → ∀ r0, ann[0]? = some r0 → r0.anomaly = some false)) := by
  constructor
  · intro hdf
    subst hdf
    rw [identify_through_gradient, annotate_gradient_empty]
  · intro ann events hok
    by_cases hdf : df = []
    · subst hdf
      rw [identify_through_gradient, annotate_gradient_empty] at hok
      simp at hok
    · rw [identify_through_gradient, annotate_gradient_ok df g hdf] at hok
      have hok2 : Except.ok (ε := String) (annotate_gradient_rows df g, anomaly_events (annotate_gradient_rows df g) 20)
          = Except.ok (ann, events) := hok
      have hann : ann = annotate_gradient_rows df g :=
        (congrArg Prod.fst (Except.ok.inj hok2)).symm
      subst hann
      refine ⟨annotate_gradient_rows_length df g, ?_, ?_⟩
      · intro n rn rn1 h1 h2
        rw [annotate_gradient_rows_getElem?] at h1 h2
        rcases hw1 : (sort_data (sort_data df))[n]? with _ | w <;> rw [hw1] at h1
        · simp at h1
        rcases hg1 : ((0 : ℚ) :: listDiff ((sort_data (sort_data df)).map (fun r => r.rate - r.w1_rate)))[n]? with _ | gv <;> rw [hg1] at h1
        · simp at h1
        rcases hw2 : (sort_data (sort_data df))[n + 1]? with _ | w2 <;> rw [hw2] at h2
        · simp at h2
        rcases hg2 : ((0 : ℚ) :: listDiff ((sort_data (sort_data df)).map (fun r => r.rate - r.w1_rate)))[n + 1]? with _ | gv2 <;> rw [hg2] at h2
        · simp at h2
        obtain rfl := Option.some.inj h1
        obtain rfl := Option.some.inj h2
        simp only [List.getElem?_cons_succ] at hg2
        have hdev1 : ((sort_data (sort_data df)).map (fun r => r.rate - r.w1_rate))[n]?
            = some (w.rate - w.w1_rate) := by
          rw [List.getElem?_map, hw1]; rfl
        have hdev2 : ((sort_data (sort_data df)).map (fun r => r.rate - r.w1_rate))[n + 1]?
            = some (w2.rate - w2.w1_rate) := by
          rw [List.getElem?_map, hw2]; rfl
        have hdd := listDiff_getElem? _ n _ _ hdev1 hdev2
        rw [hdd] at hg2
        obtain rfl := Option.some.inj hg2
        rfl
      · intro hg r0 h0
        rw [annotate_gradient_rows_getElem?] at h0
        rcases hw1 : (sort_data (sort_data df))[0]? with _ | w <;> rw [hw1] at h0
        · simp at h0
        simp only [List.getElem?_cons_zero] at h0
        obtain rfl := Option.some.inj h0
        have : (decide (g ≤ (0 : ℚ))) = false := decide_eq_false (not_le.mpr hg)
        simp [this]

/-- Witness for C6 (amended) on the series `[(0,0,0), (1,1,0)]` with
threshold `3/10`: the run succeeds, the second sample has difference
`1 >= 3/10` and is flagged, the first sample is not flagged. -/
theorem identify_through_gradient_flags_witness :
    ∃ (ann : DF) (events : List (Nat × ℚ)),
      identify_through_gradient (mkDF [(0, 0, 0), (1, 1, 0)]) (3/10) = Except.ok (ann, events) ∧
      ann[0]? = some { idx := 0, obmt := 0, rate := 0, w1_rate := 0, anomaly := some false, grad := some 0 } ∧
      ann[1]? = some { idx := 1, obmt := 1, rate := 1, w1_rate := 0, anomaly := some true, grad := some 1 } ∧
      (some true : Option Bool)
        = some (decide ((3/10 : ℚ) ≤ ((1 : ℚ) - 0) - ((0 : ℚ) - 0))) ∧
      (some false : Option Bool) = some false := by
  have hok : identify_through_gradient (mkDF [(0, 0, 0), (1, 1, 0)]) (3/10)
      = Except.ok ([{ idx := 0, obmt := 0, rate := 0, w1_rate := 0, anomaly := some false, grad := some 0 },
          { idx := 1, obmt := 1, rate := 1, w1_rate := 0, anomaly := some true, grad := some 1 }],
         [(1, 1)]) := by
    norm_num [identify_through_gradient, annotate_gradient, annotate_gradient_rows,
      anomaly_events, flaggedRows, dropDupBySnd, floorQuant, sort_data, mkDF,
      List.insertionSort, List.orderedInsert, listDiff]
  have h := (identify_through_gradient_flags (mkDF [(0, 0, 0), (1, 1, 0)]) (3/10)).2 _ _ hok
  have h0 : ([{ idx := 0, obmt := 0, rate := 0, w1_rate := 0, anomaly := some false, grad := some 0 },
      { idx := 1, obmt := 1, rate := 1, w1_rate := 0, anomaly := some true, grad := some 1 }] : DF)[0]?
      = some { idx := 0, obmt := 0, rate := 0, w1_rate := 0, anomaly := some false, grad := some 0 } := by
    simp only [List.getElem?_cons_zero]
  have h1 : ([{ idx := 0, obmt := 0, rate := 0, w1_rate := 0, anomaly := some false, grad := some 0 },
      { idx := 1, obmt := 1, rate := 1, w1_rate := 0, anomaly := some true, grad := some 1 }] : DF)[1]?
      = some { idx := 1, obmt := 1, rate := 1, w1_rate := 0, anomaly := some true, grad := some 1 } := by
    simp only [List.getElem?_cons_succ, List.getElem?_cons_zero]
  have h2 := h.2.1 0 _ _ h0 h1
  have h3 := h.2.2 (by norm_num) _ h0
  exact ⟨_, _, hok, h0, h1, h2, h3⟩

/-- C6 counterexample: on the series `[(0,0,0), (1,-1,0)]` with threshold
`3/10`, the difference at the second sample is `-1`, whose magnitude
exceeds the threshold, yet the sample is not flagged: the code tests the
signed difference, not its absolute value as the claim states. -/
theorem identify_through_gradient_counterexample :
    (∃ p : DF × List (Nat × ℚ),
        identify_through_gradient (mkDF [(0, 0, 0), (1, -1, 0)]) (3/10) = Except.ok p ∧
        p.1.map (fun r => r.anomaly) = [some false, some false]) ∧
    (3/10 : ℚ) ≤ |((-1 : ℚ) - 0) - ((0 : ℚ) - 0)| := by
  constructor
  · have hok : identify_through_gradient (mkDF [(0, 0, 0), (1, -1, 0)]) (3/10)
        = Except.ok ([{ idx := 0, obmt := 0, rate := 0, w1_rate := 0, anomaly := some false, grad := some 0 },
            { idx := 1, obmt := 1, rate := -1, w1_rate := 0, anomaly := some false, grad := some (-1) }],
           []) := by
      norm_num [identify_through_gradient, annotate_gradient, annotate_gradient_rows,
        anomaly_events, flaggedRows, dropDupBySnd, floorQuant, sort_data, mkDF,
        List.insertionSort, List.orderedInsert, listDiff]
    exact ⟨_, hok, rfl⟩
  · rw [show ((-1 : ℚ) - 0) - ((0 : ℚ) - 0) = -1 by norm_num]
    rw [abs_neg, abs_one]
    norm_num

/-! ### Index-label bookkeeping for `identify_noise` -/

theorem dropDupBySnd_sublist : ∀ (l : List (Nat × ℚ)) (seen : List ℚ),
    (dropDupBySnd seen l).Sublist l := by
  intro l
  induction l with
  | nil => intro seen; simp [dropDupBySnd]
  | cons e rest ih =>
    intro seen
    rw [dropDupBySnd]
    by_cases he : e.2 ∈ seen
    · rw [if_pos he]
      exact (ih seen).cons e
    · rw [if_neg he]
      exact (ih (e.2 :: seen)).cons₂ e

/-- The index labels of a dataframe built by `mkDF` and passed through the
sort and the anomaly annotation are pairwise distinct. -/
theorem nodup_idx_annotate (rows : List (ℚ × ℚ × ℚ)) (t : ℚ) :
    ((annotate_anomaly (mkDF rows) t).map Row.idx).Nodup := by
  have h1 : (annotate_anomaly (mkDF rows) t).map Row.idx
      = (sort_data (mkDF rows)).map Row.idx := by
    rw [annotate_anomaly, List.map_map]; rfl
  have h2 : ((sort_data (mkDF rows)).map Row.idx).Perm ((mkDF rows).map Row.idx) :=
    (List.perm_insertionSort _ (mkDF rows)).map Row.idx
  have h3 : (mkDF rows).map Row.idx = List.range rows.length := by
    rw [mkDF, List.map_map]
    rw [show (Row.idx ∘ fun p : Nat × (ℚ × ℚ × ℚ) =>
        ({ idx := p.1, obmt := p.2.1, rate := p.2.2.1, w1_rate := p.2.2.2 } : Row)) = Prod.fst from rfl]
    rw [List.enum_map_fst]
  rw [h1]
  refine h2.nodup_iff.mpr ?_
  rw [h3]
  exact List.nodup_range rows.length

/-- Every event of `identify_anomaly` names the index of some flagged row
of the annotated frame, and its time is that row's quantised `obmt`. -/
theorem event_mem_flagged (df : DF) (t : ℚ) (e : Nat × ℚ)
    (he : e ∈ (identify_anomaly df t).2) :
    ∃ r ∈ flaggedRows (annotate_anomaly df t), r.idx = e.1 ∧ floorQuant 10 r.obmt = e.2 := by
  have h1 : e ∈ (flaggedRows (annotate_anomaly df t)).map (fun r => (r.idx, floorQuant 10 r.obmt)) :=
    (dropDupBySnd_sublist _ []).mem he
  obtain ⟨r, hr, hre⟩ := List.mem_map.mp h1
  exact ⟨r, hr, congrArg Prod.fst hre, congrArg Prod.snd hre⟩

theorem find?_idx_of_nodup : ∀ (l : DF) (r : Row),
    ((l.map Row.idx).Nodup) → r ∈ l → l.find? (fun r2 => r2.idx == r.idx) = some r := by
  intro l
  induction l with
  | nil => intro r _ hr; simp at hr
  | cons c rest ih =>
    intro r hnd hr
    rw [List.map_cons, List.nodup_cons] at hnd
    rcases List.mem_cons.mp hr with rfl | hr2
    · rw [List.find?_cons]
      simp
    · have hne : (c.idx == r.idx) = false := by
        refine beq_eq_false_iff_ne.mpr (fun he => hnd.1 ?_)
        rw [he]
        exact List.mem_map_of_mem Row.idx hr2
      rw [List.find?_cons, hne]
      exact ih r hnd.2 hr2

theorem lookup_eq_none_of_not_mem : ∀ (l : List (Nat × Bool)) (i : Nat),
    i ∉ l.map Prod.fst → l.lookup i = none := by
  intro l
  induction l with
  | nil => intro i _; rfl
  | cons c rest ih =>
    intro i hi
    rw [List.map_cons, List.mem_cons] at hi
    push_neg at hi
    rw [List.lookup]
    have : (i == c.1) = false := beq_eq_false_iff_ne.mpr hi.1
    rw [this]
    exact ih i hi.2

theorem lookup_eq_some_of_mem_nodup : ∀ (l : List (Nat × Bool)) (i : Nat) (b : Bool),
    ((l.map Prod.fst).Nodup) → (i, b) ∈ l → l.lookup i = some b := by
  intro l
  induction l with
  | nil => intro i b _ hm; simp at hm
  | cons c rest ih =>
    intro i b hnd hm
    rw [List.map_cons, List.nodup_cons] at hnd
    rcases List.mem_cons.mp hm with rfl | hm2
    · rw [List.lookup]
      simp
    · have hne : (i == c.1) = false := by
        refine beq_eq_false_iff_ne.mpr (fun he => hnd.1 ?_)
        rw [← he]
        exact List.mem_map_of_mem Prod.fst hm2
      rw [List.lookup, hne]
      exact ih i b hnd.2 hm2

theorem map_filterMap_congr {α β γ : Type} : ∀ (t : List α) (f : α → Option β)
    (g : β → γ) (h : α → γ),
    (∀ e ∈ t, ∃ r, f e = some r ∧ g r = h e) →
    (t.filterMap f).map g = t.map h := by
  intro t f g h
  induction t with
  | nil => intro _; rfl
  | cons e rest ih =>
    intro hall
    obtain ⟨r, hr, hgr⟩ := hall e (List.mem_cons_self e rest)
    rw [List.filterMap_cons, hr, List.map_cons, List.map_cons, hgr]
    rw [ih (fun e2 he2 => hall e2 (List.mem_cons_of_mem e he2))]

/-- The index labels of the event table are pairwise distinct and each is
the label of a flagged row of the annotated frame. -/
theorem nodup_idx_events (rows : List (ℚ × ℚ × ℚ)) (t : ℚ) :
    (((identify_anomaly (mkDF rows) t).2).map Prod.fst).Nodup := by
  have hsub1 : (identify_anomaly (mkDF rows) t).2.Sublist
      ((flaggedRows (annotate_anomaly (mkDF rows) t)).map (fun r => (r.idx, floorQuant 10 r.obmt))) :=
    dropDupBySnd_sublist _ []
  have hsub2 : ((identify_anomaly (mkDF rows) t).2.map Prod.fst).Sublist
      (((flaggedRows (annotate_anomaly (mkDF rows) t)).map (fun r => (r.idx, floorQuant 10 r.obmt))).map Prod.fst) :=
    hsub1.map Prod.fst
  refine hsub2.nodup ?_
  rw [List.map_map]
  rw [show (Prod.fst ∘ fun r : Row => (r.idx, floorQuant 10 r.obmt)) = Row.idx from rfl]
  refine List.Nodup.sublist ?_ (nodup_idx_annotate rows t)
  exact (List.filter_sublist _).map Row.idx

/-- The fewer-than-3-events branch of `identify_noise`, as an equation. -/
theorem identify_noise_lt3 (df : DF) (h : ((identify_anomaly df 2).2).length < 3) :
    identify_noise df
      = (((identify_anomaly df 2).2).filterMap (fun e => (((identify_anomaly df 2).1).map (fun r => { r with hits := r.anomaly })).find? (fun r => r.idx == e.1)),
         (identify_anomaly df 2).2) := by
  simp only [identify_noise]
  rw [if_pos h]

/-- The at-least-3-events branch of `identify_noise`, as an equation. -/
theorem identify_noise_ge3 (df : DF) (h3 : 3 ≤ ((identify_anomaly df 2).2).length) :
    identify_noise df
      = (((identify_anomaly df 2).1).map (fun r => { r with hits := some (((noiseFlags ((identify_anomaly df 2).2)).lookup r.idx).getD false) }),
         (identify_anomaly df 2).2) := by
  simp only [identify_noise]
  rw [if_neg (not_lt.mpr h3)]

/-- C4: when the threshold detector finds fewer than 3 events,
`identify_noise` classifies every row it returns (the event rows) with
`hits = true`, and returns the event list unchanged.  The embedding of
this branch is a total function: no exception or warning path exists. -/
theorem identify_noise_few_events (rows : List (ℚ × ℚ × ℚ))
    (h : ((identify_anomaly (mkDF rows) 2).2).length < 3) :
    (∀ r ∈ (identify_noise (mkDF rows)).1, r.hits = some true) ∧
    (identify_noise (mkDF rows)).2 = (identify_anomaly (mkDF rows) 2).2 := by
  have hbr := identify_noise_lt3 (mkDF rows) h
  rw [hbr]
  refine ⟨?_, rfl⟩
  intro r hr
  obtain ⟨e, het, hfind⟩ := List.mem_filterMap.mp hr
  have hrmem := List.mem_of_find?_eq_some hfind
  have hidx : r.idx = e.1 := by
    have := List.find?_some hfind
    simpa using this
  obtain ⟨r0, hr0mem, hr0eq⟩ := List.mem_map.mp hrmem
  obtain ⟨rf, hrfmem, hrfidx, _⟩ := event_mem_flagged (mkDF rows) 2 e het
  have hrfdata : rf ∈ annotate_anomaly (mkDF rows) 2 := List.mem_of_mem_filter hrfmem
  have hrfflag : rf.anomaly = some true := by
    have := List.of_mem_filter hrfmem
    simpa using this
  have hr0idx : r0.idx = rf.idx := by
    have h1 : r.idx = r0.idx := by rw [← hr0eq]
    rw [hrfidx, ← hidx, h1]
  have hr0data : r0 ∈ annotate_anomaly (mkDF rows) 2 := hr0mem
  have hr0rf : r0 = rf :=
    List.inj_on_of_nodup_map (nodup_idx_annotate rows 2) hr0data hrfdata hr0idx
  rw [← hr0eq]
  show r0.anomaly = some true
  rw [hr0rf]
  exact hrfflag

/-- Witness for C4 on the two-sample series `[(0,10,0), (1,0,0)]`, which
produces a single event: the returned frame's rows all have `hits = true`. -/
theorem identify_noise_few_events_witness :
    ((identify_anomaly (mkDF [(0, 10, 0), (1, 0, 0)]) 2).2).length < 3 ∧
    (∀ r ∈ (identify_noise (mkDF [(0, 10, 0), (1, 0, 0)])).1, r.hits = some true) := by
  have hlen : ((identify_anomaly (mkDF [(0, 10, 0), (1, 0, 0)]) 2).2).length < 3 := by
    norm_num [identify_anomaly, annotate_anomaly, anomaly_events, sort_data, anomalyFlag,
      flaggedRows, dropDupBySnd, floorQuant, mkDF, List.insertionSort, List.orderedInsert]
  exact ⟨hlen, (identify_noise_few_events _ hlen).1⟩

/-- The index labels of the event table, as a prerequisite for lookups:
the keys of `noiseFlags t` coincide with the event labels. -/
theorem noiseFlags_keys (t : List (Nat × ℚ)) (h2 : 2 ≤ t.length) :
    (noiseFlags t).map Prod.fst = t.map Prod.fst := by
  have hlen : t.length ≤ ((1 : ℚ) :: 1 :: listDiff (listDiff (t.map Prod.snd))).length := by
    simp only [List.length_cons, listDiff_length, List.length_map]
    omega
  simp only [noiseFlags, List.map_map]
  rw [show ((Prod.fst ∘ fun p : (Nat × ℚ) × ℚ => (p.1.1, if p.2 < 1/2 then false else true)))
      = Prod.fst ∘ Prod.fst from rfl]
  rw [← List.map_map]
  rw [List.map_fst_zip _ _ hlen]

/-- C5 counterexample: on the two-sample series `[(0,10,0), (1,0,0)]`
(one detected event, so the fewer-than-3-events branch runs) the frame
returned by `identify_noise` has a single row: it does not contain every
sample of the input. -/
theorem identify_noise_loses_samples :
    (identify_noise (mkDF [(0, 10, 0), (1, 0, 0)])).1.length = 1 ∧
    (mkDF [(0, 10, 0), (1, 0, 0)]).length = 2 := by
  constructor
  · norm_num [identify_noise, identify_anomaly, annotate_anomaly, anomaly_events, sort_data,
      anomalyFlag, flaggedRows, dropDupBySnd, floorQuant, mkDF,
      List.insertionSort, List.orderedInsert, List.filterMap_cons, List.find?_cons]
  · norm_num [mkDF]

/-- C5 (amended): when the threshold detector finds at least 3 events, the
annotated frame returned by `identify_noise` contains every sample of the
input and every row whose index is not in the event list has
`hits = false`; when it finds fewer than 3 events, the returned frame
consists of exactly the rows at the event indices (so it omits the other
samples). -/
theorem identify_noise_annotated_frame (rows : List (ℚ × ℚ × ℚ)) :
    (3 ≤ ((identify_anomaly (mkDF rows) 2).2).length →
      (identify_noise (mkDF rows)).1.length = (mkDF rows).length ∧
      (∀ r ∈ (identify_noise (mkDF rows)).1,
          r.idx ∉ ((identify_anomaly (mkDF rows) 2).2).map Prod.fst → r.hits = some false)) ∧
    (((identify_anomaly (mkDF rows) 2).2).length < 3 →
      (identify_noise (mkDF rows)).1.map Row.idx
        = ((identify_anomaly (mkDF rows) 2).2).map Prod.fst) := by
  constructor
  · intro h3
    rw [identify_noise_ge3 (mkDF rows) h3]
    constructor
    · show (((identify_anomaly (mkDF rows) 2).1).map _).length = (mkDF rows).length
      rw [List.length_map]
      show (annotate_anomaly (mkDF rows) 2).length = (mkDF rows).length
      rw [annotate_anomaly, List.length_map, sort_data, List.length_insertionSort]
    · intro r hr hnot
      obtain ⟨r0, _, hr0eq⟩ := List.mem_map.mp hr
      have hidx : r.idx = r0.idx := by rw [← hr0eq]
      have hkeys := noiseFlags_keys ((identify_anomaly (mkDF rows) 2).2) (by omega)
      have hnone : (noiseFlags ((identify_anomaly (mkDF rows) 2).2)).lookup r0.idx = none := by
        refine lookup_eq_none_of_not_mem _ _ ?_
        rw [hkeys, ← hidx]
        exact hnot
      rw [← hr0eq]
      show some (((noiseFlags ((identify_anomaly (mkDF rows) 2).2)).lookup r0.idx).getD false)
        = some false
      rw [hnone]
      rfl
  · intro h
    rw [identify_noise_lt3 (mkDF rows) h]
    refine map_filterMap_congr _ _ _ _ ?_
    intro e het
    obtain ⟨rf, hrfmem, hrfidx, _⟩ := event_mem_flagged (mkDF rows) 2 e het
    have hrfdata : rf ∈ annotate_anomaly (mkDF rows) 2 := List.mem_of_mem_filter hrfmem
    have hup : ({ rf with hits := rf.anomaly } : Row)
        ∈ ((identify_anomaly (mkDF rows) 2).1).map (fun r => { r with hits := r.anomaly }) :=
      List.mem_map_of_mem _ hrfdata
    have hnd : ((((identify_anomaly (mkDF rows) 2).1).map
        (fun r => { r with hits := r.anomaly })).map Row.idx).Nodup := by
      rw [List.map_map]
      rw [show (Row.idx ∘ fun r : Row => { r with hits := r.anomaly }) = Row.idx from rfl]
      exact nodup_idx_annotate rows 2
    have hfind := find?_idx_of_nodup _ _ hnd hup
    refine ⟨{ rf with hits := rf.anomaly }, ?_, ?_⟩
    · have hsame : e.1 = ({ rf with hits := rf.anomaly } : Row).idx := by
        rw [← hrfidx]
      rw [hsame]
      exact hfind
    · show rf.idx = e.1
      exact hrfidx

/-- Witness for C5 (amended): the at-least-3-events part on a four-sample
series with three events, the fewer-than-3-events part on a two-sample
series with one event. -/
theorem identify_noise_annotated_frame_witness :
    (identify_noise (mkDF [(0, 10, 0), (1, 10, 0), (2, 10, 0), (3, 0, 0)])).1.length
      = (mkDF [(0, 10, 0), (1, 10, 0), (2, 10, 0), (3, 0, 0)]).length ∧
    (identify_noise (mkDF [(0, 10, 0), (1, 0, 0)])).1.map Row.idx
      = ((identify_anomaly (mkDF [(0, 10, 0), (1, 0, 0)]) 2).2).map Prod.fst := by
  constructor
  · refine ((identify_noise_annotated_frame _).1 ?_).1
    norm_num [identify_anomaly, annotate_anomaly, anomaly_events, sort_data, anomalyFlag,
      flaggedRows, dropDupBySnd, floorQuant, mkDF, List.insertionSort, List.orderedInsert]
  · refine (identify_noise_annotated_frame _).2 ?_
    norm_num [identify_anomaly, annotate_anomaly, anomaly_events, sort_data, anomalyFlag,
      flaggedRows, dropDupBySnd, floorQuant, mkDF, List.insertionSort, List.orderedInsert]

theorem noiseFlags_getElem? (t : List (Nat × ℚ)) (j : ℕ) :
    (noiseFlags t)[j]? =
      (match t[j]?, ((1 : ℚ) :: 1 :: listDiff (listDiff (t.map Prod.snd)))[j]? with
      | some e, some d => some (e.1, if d < 1/2 then false else true)
      | _, _ => none) := by
  simp only [noiseFlags, List.getElem?_map]
  rw [show (t.zip ((1 : ℚ) :: 1 :: listDiff (listDiff (t.map Prod.snd))))
      = List.zipWith Prod.mk t ((1 : ℚ) :: 1 :: listDiff (listDiff (t.map Prod.snd))) from rfl]
  rw [List.getElem?_zipWith]
  generalize ((1 : ℚ) :: 1 :: listDiff (listDiff (List.map Prod.snd t)))[j]? = od
  generalize t[j]? = oe
  rcases oe with _ | e <;> rcases od with _ | d <;> rfl

theorem if_lt_half_decide (a : ℚ) :
    (if a < 1/2 then false else true) = decide ((1 : ℚ)/2 ≤ a) := by
  rcases lt_or_le a (1/2) with h | h
  · rw [if_pos h]
    exact (decide_eq_false (not_le.mpr h)).symm
  · rw [if_neg (not_lt.mpr h)]
    exact (decide_eq_true h).symm

/-- C2: with at least 3 events, `identify_noise` pads the first and second
differences of the event times with the sentinel 1, classifies event `j`
as `hits = true` exactly when its padded second difference is at least
`1/2` (in particular the first two events are always `hits = true`), and
transfers these flags to the rows of the returned frame by index label
(rows without an event default to `false`). -/
theorem identify_noise_classification (rows : List (ℚ × ℚ × ℚ))
    (h3 : 3 ≤ ((identify_anomaly (mkDF rows) 2).2).length) :
    (identify_noise (mkDF rows)).2 = (identify_anomaly (mkDF rows) 2).2 ∧
    (∀ r ∈ (identify_noise (mkDF rows)).1,
        r.hits = some (((noiseFlags ((identify_anomaly (mkDF rows) 2).2)).lookup r.idx).getD false)) ∧
    (noiseFlags ((identify_anomaly (mkDF rows) 2).2)).map Prod.fst
      = ((identify_anomaly (mkDF rows) 2).2).map Prod.fst ∧
    (noisePaddedDiff ((identify_anomaly (mkDF rows) 2).2))[0]? = some 1 ∧
    (∀ (j : ℕ) (e0 e1 : Nat × ℚ),
        ((identify_anomaly (mkDF rows) 2).2)[j]? = some e0 →
        ((identify_anomaly (mkDF rows) 2).2)[j + 1]? = some e1 →
        (noisePaddedDiff ((identify_anomaly (mkDF rows) 2).2))[j + 1]? = some (e1.2 - e0.2)) ∧
    (∀ e0 : Nat × ℚ, ((identify_anomaly (mkDF rows) 2).2)[0]? = some e0 →
        (noiseFlags ((identify_anomaly (mkDF rows) 2).2))[0]? = some (e0.1, true)) ∧
    (∀ e1 : Nat × ℚ, ((identify_anomaly (mkDF rows) 2).2)[1]? = some e1 →
        (noiseFlags ((identify_anomaly (mkDF rows) 2).2))[1]? = some (e1.1, true)) ∧
    (∀ (j : ℕ) (e0 e1 e2 : Nat × ℚ),
        ((identify_anomaly (mkDF rows) 2).2)[j]? = some e0 →
        ((identify_anomaly (mkDF rows) 2).2)[j + 1]? = some e1 →
        ((identify_anomaly (mkDF rows) 2).2)[j + 2]? = some e2 →
        (noiseFlags ((identify_anomaly (mkDF rows) 2).2))[j + 2]?
          = some (e2.1, decide ((1 : ℚ)/2 ≤ (e2.2 - e1.2) - (e1.2 - e0.2)))) ∧
    (∀ (j : ℕ) (e : Nat × ℚ) (b : Bool),
        ((identify_anomaly (mkDF rows) 2).2)[j]? = some e →
        (noiseFlags ((identify_anomaly (mkDF rows) 2).2))[j]? = some (e.1, b) →
        ∃ r ∈ (identify_noise (mkDF rows)).1, r.idx = e.1 ∧ r.hits = some b) := by
  have hkeys := noiseFlags_keys ((identify_anomaly (mkDF rows) 2).2) (by omega)
  refine ⟨?_, ?_, hkeys, ?_, ?_, ?_, ?_, ?_, ?_⟩
  · rw [identify_noise_ge3 (mkDF rows) h3]
  · rw [identify_noise_ge3 (mkDF rows) h3]
    intro r hr
    obtain ⟨r0, _, hr0eq⟩ := List.mem_map.mp hr
    rw [← hr0eq]
  · rw [noisePaddedDiff]
    simp only [List.getElem?_cons_zero]
  · intro j e0 e1 hj0 hj1
    have hm0 : (((identify_anomaly (mkDF rows) 2).2).map Prod.snd)[j]? = some e0.2 := by
      rw [List.getElem?_map, hj0]; rfl
    have hm1 : (((identify_anomaly (mkDF rows) 2).2).map Prod.snd)[j + 1]? = some e1.2 := by
      rw [List.getElem?_map, hj1]; rfl
    rw [noisePaddedDiff]
    simp only [List.getElem?_cons_succ]
    exact listDiff_getElem? _ j _ _ hm0 hm1
  · intro e0 h0
    rw [noiseFlags_getElem?, h0]
    simp only [List.getElem?_cons_zero]
    rw [if_neg (by norm_num : ¬ ((1 : ℚ) < 1/2))]
  · intro e1 h1
    rw [noiseFlags_getElem?, h1]
    simp only [List.getElem?_cons_succ, List.getElem?_cons_zero]
    rw [if_neg (by norm_num : ¬ ((1 : ℚ) < 1/2))]
  · intro j e0 e1 e2 hj0 hj1 hj2
    have hm0 : (((identify_anomaly (mkDF rows) 2).2).map Prod.snd)[j]? = some e0.2 := by
      rw [List.getElem?_map, hj0]; rfl
    have hm1 : (((identify_anomaly (mkDF rows) 2).2).map Prod.snd)[j + 1]? = some e1.2 := by
      rw [List.getElem?_map, hj1]; rfl
    have hm2 : (((identify_anomaly (mkDF rows) 2).2).map Prod.snd)[j + 2]? = some e2.2 := by
      rw [List.getElem?_map, hj2]; rfl
    have hd0 := listDiff_getElem? _ j _ _ hm0 hm1
    have hd1 := listDiff_getElem? _ (j + 1) _ _ hm1 hm2
    have hdd := listDiff_getElem? _ j _ _ hd0 hd1
    rw [noiseFlags_getElem?, hj2]
    simp only [List.getElem?_cons_succ]
    rw [hdd]
    rw [show (match some e2, some ((e2.2 - e1.2) - (e1.2 - e0.2)) with
      | some e, some d => some ((e.1, if d < 1/2 then false else true) : Nat × Bool)
      | _, _ => none)
      = some (e2.1, if (e2.2 - e1.2) - (e1.2 - e0.2) < 1/2 then false else true) from rfl]
    rw [if_lt_half_decide]
  · intro j e b hjt hjf
    have hmemflag : (e.1, b) ∈ noiseFlags ((identify_anomaly (mkDF rows) 2).2) :=
      List.getElem?_mem hjf
    have hndkeys : ((noiseFlags ((identify_anomaly (mkDF rows) 2).2)).map Prod.fst).Nodup := by
      rw [hkeys]
      exact nodup_idx_events rows 2
    have hlookup := lookup_eq_some_of_mem_nodup _ _ _ hndkeys hmemflag
    have he : e ∈ (identify_anomaly (mkDF rows) 2).2 := List.getElem?_mem hjt
    obtain ⟨rf, hrfmem, hrfidx, _⟩ := event_mem_flagged (mkDF rows) 2 e he
    have hrfdata : rf ∈ annotate_anomaly (mkDF rows) 2 := List.mem_of_mem_filter hrfmem
    rw [identify_noise_ge3 (mkDF rows) h3]
    refine ⟨{ rf with hits := some (((noiseFlags ((identify_anomaly (mkDF rows) 2).2)).lookup rf.idx).getD false) },
      List.mem_map_of_mem _ hrfdata, hrfidx, ?_⟩
    show some (((noiseFlags ((identify_anomaly (mkDF rows) 2).2)).lookup rf.idx).getD false) = some b
    rw [hrfidx, hlookup]
    rfl

/-- Witness for C2 on the four-sample series
`[(0,10,0), (1,10,0), (2,10,0), (3,0,0)]` with events at times 0, 1, 2:
the first event is classified `true` and the third, whose padded second
difference is `(2-1)-(1-0) = 0 < 1/2`, is classified `false`. -/
theorem identify_noise_classification_witness :
    (noiseFlags ((identify_anomaly (mkDF [(0, 10, 0), (1, 10, 0), (2, 10, 0), (3, 0, 0)]) 2).2))[0]?
      = some (0, true) ∧
    (noiseFlags ((identify_anomaly (mkDF [(0, 10, 0), (1, 10, 0), (2, 10, 0), (3, 0, 0)]) 2).2))[2]?
      = some (2, decide ((1 : ℚ)/2 ≤ ((2 : ℚ) - 1) - ((1 : ℚ) - 0))) := by
  have ht : (identify_anomaly (mkDF [(0, 10, 0), (1, 10, 0), (2, 10, 0), (3, 0, 0)]) 2).2
      = [(0, 0), (1, 1), (2, 2)] := by
    norm_num [identify_anomaly, annotate_anomaly, anomaly_events, sort_data, anomalyFlag,
      flaggedRows, dropDupBySnd, floorQuant, mkDF, List.insertionSort, List.orderedInsert]
  have h3 : 3 ≤ ((identify_anomaly (mkDF [(0, 10, 0), (1, 10, 0), (2, 10, 0), (3, 0, 0)]) 2).2).length := by
    rw [ht]
    norm_num
  have h := identify_noise_classification [(0, 10, 0), (1, 10, 0), (2, 10, 0), (3, 0, 0)] h3
  constructor
  · refine h.2.2.2.2.2.1 (0, 0) ?_
    rw [ht]
    simp only [List.getElem?_cons_zero]
  · refine h.2.2.2.2.2.2.2.1 0 (0, 0) (1, 1) (2, 2) ?_ ?_ ?_ <;>
      (rw [ht]; simp only [List.getElem?_cons_succ, List.getElem?_cons_zero])

/-! ### Heap model for the copy-on-derive discipline (C9)

Pandas frames are mutable objects; `df.copy()` allocates a fresh frame and
column assignment (`working_df['anomaly'] = ...`) writes the target frame
in place.  The heap model makes this explicit: a heap is a list of frames,
references are positions, `copy` allocates and assignment stores.  The
three detectors are re-expressed as heap programs whose column
computations are the pure definitions above, and C9 states that no frame
existing before the call is ever written. -/

/-- A heap of pandas frame objects; a reference is a position. -/
abbrev Heap := List DF

/-- Dereference a frame (an invalid reference reads an empty frame). -/
def heapRead (h : Heap) (r : Nat) : DF := (h[r]?).getD []

/-- Allocate a fresh frame (`df.copy()`, or a constructor), returning the
new heap and the new reference. -/
def heapAlloc (h : Heap) (f : DF) : Heap × Nat := (h ++ [f], h.length)

/-- In-place column assignment on the frame at `r`. -/
def heapStore (h : Heap) (r : Nat) (f : DF) : Heap := h.set r f

/-- `identify_anomaly` as a heap program: copy the (sorted) input, assign
the `anomaly` column on the copy, and compute the event table from the
copy. -/
def identify_anomaly_heap (h : Heap) (df : Nat) (threshold : ℚ) : Heap × Nat × List (Nat × ℚ) :=
  let c := heapAlloc h (sort_data (heapRead h df))
  let h1 := c.1
  let w := c.2
  let h2 := heapStore h1 w ((heapRead h1 w).map (anomalyFlag threshold))
  (h2, w, anomaly_events (heapRead h2 w) 10)

/-- `identify_through_gradient` as a heap program: copy the input, rebind
the working frame to a fresh sorted frame (`sort_values` returns a new
object), then assign the `grad` and `anomaly` columns on it. -/
def identify_through_gradient_heap (h : Heap) (df : Nat) (threshold : ℚ) : Heap × Nat × List (Nat × ℚ) :=
  let c := heapAlloc h (sort_data (heapRead h df))
  let h1 := c.1
  let w := c.2
  let c2 := heapAlloc h1 (sort_data (heapRead h1 w))
  let h2 := c2.1
  let w2 := c2.2
  let grads := (0 : ℚ) :: listDiff ((heapRead h2 w2).map (fun r => r.rate - r.w1_rate))
  let h3 := heapStore h2 w2 ((heapRead h2 w2).zipWith (fun r g => { r with grad := some g }) grads)
  let h4 := heapStore h3 w2 ((heapRead h3 w2).map (fun r => { r with anomaly := some (decide (threshold ≤ r.grad.getD 0)) }))
  (h4, w2, anomaly_events (heapRead h4 w2) 20)

/-- `identify_noise` as a heap program: run the threshold detector, copy
its frame, assign the `hits` column on the copy; in the fewer-than-3
branch additionally build the fresh `working_df.loc[t.index]` frame. -/
def identify_noise_heap (h : Heap) (df : Nat) : Heap × Nat × List (Nat × ℚ) :=
  let a := identify_anomaly_heap h df 2
  let h1 := a.1
  let dataRef := a.2.1
  let t := a.2.2
  if t.length < 3 then
    let c := heapAlloc h1 (heapRead h1 dataRef)
    let h2 := c.1
    let w := c.2
    let h3 := heapStore h2 w ((heapRead h2 w).map (fun r => { r with hits := r.anomaly }))
    let c2 := heapAlloc h3 (t.filterMap (fun e => (heapRead h3 w).find? (fun r => r.idx == e.1)))
    (c2.1, c2.2, t)
  else
    let flags := noiseFlags t
    let c := heapAlloc h1 (heapRead h1 dataRef)
    let h2 := c.1
    let w := c.2
    let h3 := heapStore h2 w ((heapRead h2 w).map (fun r => { r with hits := some ((flags.lookup r.idx).getD false) }))
    (h3, w, t)

theorem heapRead_append_lt (h : Heap) (f : DF) (i : Nat) (hi : i < h.length) :
    heapRead (h ++ [f]) i = heapRead h i := by
  rw [heapRead, heapRead, List.getElem?_append_left hi]

theorem heapRead_set_ne (h : Heap) (r : Nat) (f : DF) (i : Nat) (hne : r ≠ i) :
    heapRead (heapStore h r f) i = heapRead h i := by
  rw [heapRead, heapRead, heapStore, List.getElem?_set_ne hne]

theorem identify_anomaly_heap_frame (h : Heap) (df : Nat) (threshold : ℚ) (i : Nat)
    (hi : i < h.length) :
    heapRead (identify_anomaly_heap h df threshold).1 i = heapRead h i := by
  simp only [identify_anomaly_heap, heapAlloc]
  rw [heapRead_set_ne _ _ _ _ (by omega)]
  exact heapRead_append_lt h _ i hi

theorem identify_anomaly_heap_length (h : Heap) (df : Nat) (threshold : ℚ) :
    (identify_anomaly_heap h df threshold).1.length = h.length + 1 := by
  simp only [identify_anomaly_heap, heapAlloc, heapStore]
  rw [List.length_set, List.length_append]
  rfl

theorem identify_noise_heap_frame (h : Heap) (df : Nat) (i : Nat) (hi : i < h.length) :
    heapRead (identify_noise_heap h df).1 i = heapRead h i := by
  have hlen := identify_anomaly_heap_length h df 2
  have hframe := identify_anomaly_heap_frame h df 2 i hi
  simp only [identify_noise_heap, heapAlloc]
  by_cases hc : (identify_anomaly_heap h df 2).2.2.length < 3
  · rw [if_pos hc]
    rw [heapRead_append_lt _ _ i (by simp only [heapStore, List.length_set, List.length_append, List.length_cons, List.length_nil, hlen]; omega)]
    rw [heapRead_set_ne _ _ _ _ (by simp only [List.length_append, List.length_cons, List.length_nil, hlen]; omega)]
    rw [heapRead_append_lt _ _ i (by omega), hframe]
  · rw [if_neg hc]
    rw [heapRead_set_ne _ _ _ _ (by simp only [List.length_append, List.length_cons, List.length_nil, hlen]; omega)]
    rw [heapRead_append_lt _ _ i (by omega), hframe]

/-- C9: none of the three detectors writes any frame that existed before
the call: every derived column is assigned on a freshly allocated copy, so
the caller's input frame (and every other pre-existing frame) reads back
unchanged afterwards. -/
theorem detectors_preserve_caller_frames (h : Heap) (df : Nat) (threshold : ℚ) (i : Nat)
    (hi : i < h.length) :
    heapRead (identify_anomaly_heap h df threshold).1 i = heapRead h i ∧
    heapRead (identify_through_gradient_heap h df threshold).1 i = heapRead h i ∧
    heapRead (identify_noise_heap h df).1 i = heapRead h i := by
  refine ⟨identify_anomaly_heap_frame h df threshold i hi, ?_, identify_noise_heap_frame h df i hi⟩
  simp only [identify_through_gradient_heap, heapAlloc]
  rw [heapRead_set_ne _ _ _ _ (by simp only [heapStore, List.length_set, List.length_append, List.length_cons, List.length_nil]; omega)]
  rw [heapRead_set_ne _ _ _ _ (by simp only [List.length_append, List.length_cons, List.length_nil]; omega)]
  rw [heapRead_append_lt _ _ i (by simp only [List.length_append, List.length_cons, List.length_nil]; omega)]
  exact heapRead_append_lt h _ i hi

/-- Witness for C9: a one-frame heap holding a one-row frame; the frame
reads back unchanged after each detector. -/
theorem detectors_preserve_caller_frames_witness :
    heapRead (identify_anomaly_heap [[{ idx := 0, obmt := 0, rate := 10, w1_rate := 0 }]] 0 2).1 0
      = [{ idx := 0, obmt := 0, rate := 10, w1_rate := 0 }] ∧
    heapRead (identify_noise_heap [[{ idx := 0, obmt := 0, rate := 10, w1_rate := 0 }]] 0).1 0
      = [{ idx := 0, obmt := 0, rate := 10, w1_rate := 0 }] := by
  have h := detectors_preserve_caller_frames [[{ idx := 0, obmt := 0, rate := 10, w1_rate := 0 }]] 0 2 0 (by norm_num)
  have hread : heapRead [[{ idx := 0, obmt := 0, rate := 10, w1_rate := 0 }]] 0
      = [{ idx := 0, obmt := 0, rate := 10, w1_rate := 0 }] := rfl
  exact ⟨by rw [h.1, hread], by rw [h.2.2, hread]⟩

end GaiaLab
